import Mathlib

/-!
# Trace streams of rr (`src/trace.h`) and the help command (`src/HelpCommand.cc`)

A shallow embedding of the trace stream classes `TraceFstream`,
`TraceOfstream` and `TraceIfstream`, and of `HelpCommand::run`.

* `std::string` is `String`; `a + b` on strings is `++`.
* `uint32_t` is a `Nat` below `2^32`; `++x` is `(x + 1) % 2^32`.
* A member function that mutates `this` returns the new object next to
  its result.
-/

namespace RR

/-! ## Data model -/

/-- Number of values of a `uint32_t`. -/
def UINT32_SIZE : Nat := 2 ^ 32

/-- Class `TraceFstream`: the data common to recording and replay. -/
structure TraceFstream where
  /-- Directory into which the trace files are saved. -/
  trace_dir : String
  /-- Trace time, a `uint32_t`. -/
  global_time : Nat
deriving DecidableEq

/-- Constructor `TraceFstream(trace_dir, initial_time)`. -/
def TraceFstream.new (trace_dir : String) (initial_time : Nat) : TraceFstream :=
  { trace_dir := trace_dir, global_time := initial_time }

/-- Member `dir()`. -/
def TraceFstream.dir (s : TraceFstream) : String := s.trace_dir

/-- Member `time()`. -/
def TraceFstream.time (s : TraceFstream) : Nat := s.global_time

/-- Member `events_path()`. -/
def TraceFstream.events_path (s : TraceFstream) : String := s.trace_dir ++ "/events"

/-- Member `data_path()`. -/
def TraceFstream.data_path (s : TraceFstream) : String := s.trace_dir ++ "/data"

/-- Member `data_header_path()`. -/
def TraceFstream.data_header_path (s : TraceFstream) : String := s.trace_dir ++ "/data_header"

/-- Member `mmaps_path()`. -/
def TraceFstream.mmaps_path (s : TraceFstream) : String := s.trace_dir ++ "/mmaps"

/-- Member `args_env_path()`. -/
def TraceFstream.args_env_path (s : TraceFstream) : String := s.trace_dir ++ "/args_env"

/-- Member `version_path()`. -/
def TraceFstream.version_path (s : TraceFstream) : String := s.trace_dir ++ "/version"

/-- Member `tick_time()`, `return ++global_time;` on a `uint32_t`: the value
returned and the object afterwards. -/
def TraceFstream.tick_time (s : TraceFstream) : Nat × TraceFstream :=
  let t := (s.global_time + 1) % UINT32_SIZE
  (t, { s with global_time := t })

/-- The object state is a value of its C++ type: `global_time` fits a `uint32_t`. -/
def TraceFstream.wf (s : TraceFstream) : Prop := s.global_time < UINT32_SIZE

instance (s : TraceFstream) : Decidable s.wf := by
  unfold TraceFstream.wf; infer_instance

/-- Modelled from the spec: class `CompressedWriter` (`compressed_io.h` is not
part of the sources). It is "constructed with `(path, block_size,
compression_threads)`" and "presents an append-only byte sink"; `written` is the
byte stream a later reader observes, "the concatenation of all writes in the
order `write` was called". -/
structure CompressedWriter where
  path : String
  block_size : Nat
  num_threads : Nat
  written : List Nat
deriving DecidableEq

/-- Modelled from the spec: constructor `CompressedWriter(path, block_size,
num_threads)`; nothing has been written yet. -/
def CompressedWriter.new (path : String) (block_size num_threads : Nat) :
    CompressedWriter :=
  { path := path, block_size := block_size, num_threads := num_threads, written := [] }

/-- Modelled from the spec: `CompressedWriter::write(bytes)` appends to the byte sink. -/
def CompressedWriter.write (w : CompressedWriter) (bytes : List Nat) : CompressedWriter :=
  { w with written := w.written ++ bytes }

/-- Class `TraceOfstream`: a `TraceFstream` with the four compressed writers. -/
structure TraceOfstream extends TraceFstream where
  events : CompressedWriter
  data : CompressedWriter
  data_header : CompressedWriter
  mmaps : CompressedWriter
deriving DecidableEq

/-- Constructor `TraceOfstream(trace_dir)`: the base is built first with
initial time 1, then the members from the base's path helpers. -/
def TraceOfstream.new (trace_dir : String) : TraceOfstream :=
  let base := TraceFstream.new trace_dir 1
  { toTraceFstream := base
    events := CompressedWriter.new base.events_path (1024 * 1024) 1
    data := CompressedWriter.new base.data_path (8 * 1024 * 1024) 3
    data_header := CompressedWriter.new base.data_header_path (1024 * 1024) 1
    mmaps := CompressedWriter.new base.mmaps_path (64 * 1024) 1 }

/-- Inherited member `tick_time()` called on a `TraceOfstream`. -/
def TraceOfstream.tick_time (w : TraceOfstream) : Nat × TraceOfstream :=
  let r := w.toTraceFstream.tick_time
  (r.1, { w with toTraceFstream := r.2 })

/-- Calls `tick_time()` on a writer `n` times in a row: the values returned, in
call order, and the writer afterwards. -/
def TraceOfstream.tick_times : Nat → TraceOfstream → List Nat × TraceOfstream
  | 0, w => ([], w)
  | n + 1, w =>
    let r := w.tick_time
    let rest := TraceOfstream.tick_times n r.2
    (r.1 :: rest.1, rest.2)

/-! ## Event frames and the writer's `operator<<` -/

/-- Modelled from the spec: type `EncodedEvent` (`event.h` is not part of the
sources), a "fixed-size opaque tag produced by the recorder", opaque "apart from
a `has_exec_info` predicate the serializer can consult". -/
structure EncodedEvent where
  bytes : List Nat
  has_exec_info : Bool
deriving DecidableEq

/-- Struct `trace_frame`, in a build without `HPC_ENABLE_EXTRA_PERF_COUNTERS`.
`Registers` and `ExtraRegisters` (declared outside the sources) are kept as
their bytes. -/
structure trace_frame where
  /-- Field of type `uint32_t`. -/
  global_time : Nat
  /-- Field of type `uint32_t`. -/
  thread_time : Nat
  /-- Field of type `pid_t`. -/
  tid : Int
  ev : EncodedEvent
  /-- Field of type `int64_t`. -/
  rbc : Int
  recorded_regs : List Nat
  recorded_extra_regs : List Nat
deriving DecidableEq

/-- The `k` little-endian bytes of `v`. -/
def le_bytes : Nat → Nat → List Nat
  | 0, _ => []
  | k + 1, v => v % 256 :: le_bytes k (v / 256)

/-- The `k` little-endian bytes of a signed value, in two's complement. -/
def le_bytes_signed (k : Nat) (v : Int) : List Nat :=
  le_bytes k (v % (256 ^ k : Nat)).toNat

/-- Modelled from the spec: the "event frame format" written into `events`
(the serializer lives in `trace.cc`, not part of the sources): `u32 global_time`,
`u32 thread_time`, `i32 tid`, the event bytes and, when `has_exec_info`, `i64
rbc`, the register bytes and the length-prefixed extra registers. -/
def trace_frame.serialize (f : trace_frame) : List Nat :=
  le_bytes 4 f.global_time ++ le_bytes 4 f.thread_time ++ le_bytes_signed 4 f.tid ++
    f.ev.bytes ++
    (if f.ev.has_exec_info then
      le_bytes_signed 8 f.rbc ++ f.recorded_regs ++
        le_bytes 4 f.recorded_extra_regs.length ++ f.recorded_extra_regs
    else [])

/-- Modelled from the spec: `append_frame(frame)`, the writer's
`operator<<(TraceOfstream&, const trace_frame&)`, declared in `trace.h` and
defined in `trace.cc`, which is not part of the sources: it "serializes to
`events`" and "ticks internal time" (in `trace.h`: "recording a trace frame has
the side effect of ticking the global time"). The operator returns the stream,
so the call always yields a writer; what the frame has to satisfy is stated
apart, in `stated_precondition` and `carries_writer_time`. Failures of the
underlying file are not modelled. -/
def TraceOfstream.append_frame (w : TraceOfstream) (frame : trace_frame) : TraceOfstream :=
  let w1 : TraceOfstream := { w with events := w.events.write frame.serialize }
  w1.tick_time.2

/-- Modelled from the spec: the precondition of `append_frame` in the spec's
words, `frame.global_time == writer.time + 1`, the sum taken on `uint32_t`. -/
def TraceOfstream.stated_precondition (w : TraceOfstream) (frame : trace_frame) : Bool :=
  decide (frame.global_time = (w.time + 1) % UINT32_SIZE)

/-- The frame carries the writer's current time, `frame.global_time ==
writer.time`. Under it the first frame of a recording carries the "initial
global time at recording, 1" that the comment in the constructor of
`TraceIfstream` speaks of. -/
def TraceOfstream.carries_writer_time (w : TraceOfstream) (frame : trace_frame) : Bool :=
  decide (frame.global_time = w.time)

/-- A sequence of `append_frame` calls, in order: the writer afterwards. -/
def TraceOfstream.append_frames : TraceOfstream → List trace_frame → TraceOfstream
  | w, [] => w
  | w, f :: fs => TraceOfstream.append_frames (w.append_frame f) fs

/-- Whether, along a sequence of `append_frame` calls, each frame satisfies
`pre` against the writer as it is when that frame is appended. -/
def TraceOfstream.each_frame_satisfies (pre : TraceOfstream → trace_frame → Bool) :
    TraceOfstream → List trace_frame → Bool
  | _, [] => true
  | w, f :: fs => pre w f && TraceOfstream.each_frame_satisfies pre (w.append_frame f) fs

/-! ## The reader -/

/-- Modelled from the spec: the contents of the sealed trace files, for each
path the decoded blocks that precede the end-of-stream sentinel. Readers only
read it. -/
abbrev Disk := String → List (List Nat)

/-- Modelled from the spec: class `CompressedReader` (`compressed_io.h` is not
part of the sources). "Constructed with a path"; it "maintains (i) a file
position at block granularity, (ii) a decompressed tail buffer with a read
cursor". -/
structure CompressedReader where
  path : String
  block_pos : Nat
  buffer : List Nat
  cursor : Nat
deriving DecidableEq

/-- Modelled from the spec: constructor `CompressedReader(path)`, the state
"immediately after `open`". -/
def CompressedReader.new (path : String) : CompressedReader :=
  { path := path, block_pos := 0, buffer := [], cursor := 0 }

/-- Modelled from the spec: the copy constructor of `CompressedReader`, used by
`clone`: "an independent reader over the same file", with the same file
position, tail buffer and read cursor. -/
def CompressedReader.copy (other : CompressedReader) : CompressedReader :=
  { path := other.path, block_pos := other.block_pos, buffer := other.buffer,
    cursor := other.cursor }

/-- Modelled from the spec: `CompressedReader::at_end()`, "true iff the read
cursor has consumed all bytes of the last block before the end-of-stream
sentinel". -/
def CompressedReader.at_end (disk : Disk) (r : CompressedReader) : Bool :=
  decide ((disk r.path).length ≤ r.block_pos) && decide (r.buffer.length ≤ r.cursor)

/-- Modelled from the spec: the loop of `CompressedReader::read`, consuming the
tail buffer and then decoding the next block; `rest` are the blocks of the file
from `block_pos` on.
Returns the new `block_pos`, `buffer`, `cursor` and the bytes read. -/
def CompressedReader.read_loop :
    List (List Nat) → Nat → List Nat → Nat → Nat → (Nat × List Nat × Nat) × List Nat
  | rest, pos, buffer, cursor, n =>
    let avail := buffer.drop cursor
    if n ≤ avail.length then
      ((pos, buffer, cursor + n), avail.take n)
    else
      match rest with
      | [] => ((pos, buffer, buffer.length), avail)
      | b :: rest1 =>
        let r := CompressedReader.read_loop rest1 (pos + 1) b 0 (n - avail.length)
        (r.1, avail ++ r.2)

/-- Modelled from the spec: `CompressedReader::read(n)`: it "satisfies requests
by consuming the tail buffer and, when exhausted, decoding the next block.
Short reads only at end of stream". -/
def CompressedReader.read (disk : Disk) (r : CompressedReader) (n : Nat) :
    List Nat × CompressedReader :=
  let res := CompressedReader.read_loop ((disk r.path).drop r.block_pos) r.block_pos
    r.buffer r.cursor n
  (res.2, { r with block_pos := res.1.1, buffer := res.1.2.1, cursor := res.1.2.2 })

/-- Modelled from the spec: `CompressedReader::rewind()` "resets both file
position and tail buffer to the state immediately after `open`". -/
def CompressedReader.rewind (r : CompressedReader) : CompressedReader :=
  CompressedReader.new r.path

/-- Class `TraceIfstream`: a `TraceFstream` with the four compressed readers. -/
structure TraceIfstream extends TraceFstream where
  events : CompressedReader
  data : CompressedReader
  data_header : CompressedReader
  mmaps : CompressedReader
deriving DecidableEq

/-- Constructor `TraceIfstream(trace_dir)`: the base is built first with
initial time 0, then the members from the base's path helpers. -/
def TraceIfstream.new (trace_dir : String) : TraceIfstream :=
  let base := TraceFstream.new trace_dir 0
  { toTraceFstream := base
    events := CompressedReader.new base.events_path
    data := CompressedReader.new base.data_path
    data_header := CompressedReader.new base.data_header_path
    mmaps := CompressedReader.new base.mmaps_path }

/-- Copy constructor `TraceIfstream(const TraceIfstream& other)`. -/
def TraceIfstream.copy (other : TraceIfstream) : TraceIfstream :=
  { toTraceFstream := TraceFstream.new other.dir other.time
    events := other.events.copy
    data := other.data.copy
    data_header := other.data_header.copy
    mmaps := other.mmaps.copy }

/-- Member `at_end()`, `return events.at_end();`. -/
def TraceIfstream.at_end (disk : Disk) (r : TraceIfstream) : Bool :=
  r.events.at_end disk

/-- Inherited member `tick_time()` called on a `TraceIfstream`. -/
def TraceIfstream.tick_time (r : TraceIfstream) : Nat × TraceIfstream :=
  let t := r.toTraceFstream.tick_time
  (t.1, { r with toTraceFstream := t.2 })

/-! ## Reader objects in memory -/

/-- The four streams of a trace reader. -/
inductive Stream where
  | events
  | data
  | data_header
  | mmaps
deriving DecidableEq

/-- Modelled from the spec: the mutations a `TraceIfstream` object undergoes. The read operators and
`rewind()` are defined in `trace.cc`, which is not part of the sources; each of
them is a sequence of these steps: ticking the time, setting it to the
`global_time` read from a frame, reading bytes from one of the streams, and
rewinding. -/
inductive ReaderOp where
  | tick
  | set_time (t : Nat)
  | advance (s : Stream) (n : Nat)
  | rewind
deriving DecidableEq

/-- Modelled from the spec: `TraceIfstream::rewind()` (defined in `trace.cc`,
not part of the sources): "Rewinds all four streams and resets `global_time` to
0." -/
def TraceIfstream.rewind (r : TraceIfstream) : TraceIfstream :=
  { toTraceFstream := { r.toTraceFstream with global_time := 0 }
    events := r.events.rewind
    data := r.data.rewind
    data_header := r.data_header.rewind
    mmaps := r.mmaps.rewind }

/-- One mutation of a reader object; the trace files are only read. -/
def TraceIfstream.apply (disk : Disk) (r : TraceIfstream) : ReaderOp → TraceIfstream
  | .tick => r.tick_time.2
  | .set_time t => { r with global_time := t % UINT32_SIZE }
  | .advance .events n => { r with events := (r.events.read disk n).2 }
  | .advance .data n => { r with data := (r.data.read disk n).2 }
  | .advance .data_header n => { r with data_header := (r.data_header.read disk n).2 }
  | .advance .mmaps n => { r with mmaps := (r.mmaps.read disk n).2 }
  | .rewind => r.rewind

/-- The trace files together with the reader objects alive in memory; a reader
object is addressed by its index in `readers`. -/
structure World where
  disk : Disk
  readers : List TraceIfstream

/-- Modelled from the spec: `TraceIfstream::clone()` (defined in `trace.cc`, not
part of the sources), "a copy of this stream that has exactly the same state as
this": a new object built by the copy constructor from the object at
`addr`. Returns the new object's address and the memory afterwards. -/
def World.clone (w : World) (addr : Nat) : Option (Nat × World) :=
  match w.readers[addr]? with
  | none => none
  | some r => some (w.readers.length, { w with readers := w.readers ++ [r.copy] })

/-- Performs one mutation on the reader object at `addr`. -/
def World.apply (w : World) (addr : Nat) (op : ReaderOp) : World :=
  match w.readers[addr]? with
  | none => w
  | some r => { w with readers := w.readers.set addr (r.apply w.disk op) }

/-- Performs a sequence of mutations on the reader object at `addr`. -/
def World.run (w : World) (addr : Nat) : List ReaderOp → World
  | [] => w
  | op :: ops => World.run (w.apply addr op) addr ops

/-- The value of `time()` of the reader object at `addr`. -/
def World.time (w : World) (addr : Nat) : Option Nat :=
  (w.readers[addr]?).map (fun r => r.time)

/-- The value of `at_end()` of the reader object at `addr`. -/
def World.at_end (w : World) (addr : Nat) : Option Bool :=
  (w.readers[addr]?).map (fun r => r.at_end w.disk)

/-! ## The help command -/

/-- Class `Command` as far as `HelpCommand.cc` shows it: constructed from a name
and a help text that may be `nullptr`. -/
structure Command where
  name : String
  help : Option String
deriving DecidableEq

/-- The calls `HelpCommand::run` makes to functions defined outside the sources. -/
inductive Call where
  | print_usage
  | print_help (c : Command)
deriving DecidableEq

/-- What `HelpCommand::run` uses from outside the sources:
`Command::command_for_name` (`none` is the null pointer) and the value that
`print_usage()` returns. -/
structure CommandEnv where
  command_for_name : String → Option Command
  print_usage : Int

/-- Member `HelpCommand::run(args)`: the calls made, in order, and the value
returned. -/
def HelpCommand.run (env : CommandEnv) (args : List String) : List Call × Int :=
  match args with
  | [] => ([Call.print_usage], env.print_usage)
  | a0 :: _ =>
    match env.command_for_name a0 with
    | none => ([Call.print_usage], env.print_usage)
    | some command => ([Call.print_help command], 0)

/-- The six trace file paths of a trace stream, in the order of `trace.h`. -/
def TraceFstream.all_paths (s : TraceFstream) : List String :=
  [s.events_path, s.data_path, s.data_header_path, s.mmaps_path, s.args_env_path,
    s.version_path]

/-- A frame without exec info at global time `t`, as in the single-frame
scenario of the spec: `thread_time = 1`, `tid = 42`. -/
def sample_frame (t : Nat) : trace_frame :=
  { global_time := t, thread_time := 1, tid := 42,
    ev := { bytes := [0, 0, 0, 0], has_exec_info := false },
    rbc := 0, recorded_regs := [], recorded_extra_regs := [] }

/-- A sealed trace in directory `t` whose events file holds two blocks. -/
def demo_disk : Disk := fun path =>
  if path = "t/events" then [[1, 2, 3], [4, 5]] else []

/-- A memory with one freshly opened reader of `demo_disk`, at address 0. -/
def demo_world : World :=
  { disk := demo_disk, readers := [TraceIfstream.new "t"] }

/-- The memory `demo_world` after cloning the reader at address 0. -/
def demo_world_cloned : World :=
  { disk := demo_disk, readers := [TraceIfstream.new "t", (TraceIfstream.new "t").copy] }

/-- A registry with the single command `record`. -/
def demo_env : CommandEnv :=
  { command_for_name := fun name =>
      if name = "record" then some { name := "record", help := some " rr record\n" }
      else none
    print_usage := 1 }

/-! ## Helper lemmas -/

theorem TraceOfstream.append_frame_time (w : TraceOfstream) (f : trace_frame) :
    (w.append_frame f).time = (w.time + 1) % UINT32_SIZE := rfl

theorem TraceOfstream.append_frames_time (frames : List trace_frame) :
    ∀ w : TraceOfstream, w.time < UINT32_SIZE →
      (w.append_frames frames).time = (w.time + frames.length) % UINT32_SIZE := by
  induction frames with
  | nil => intro w hw; simp [TraceOfstream.append_frames, Nat.mod_eq_of_lt hw]
  | cons f fs ih =>
    intro w hw
    have hw2 : (w.append_frame f).time < UINT32_SIZE := by
      rw [TraceOfstream.append_frame_time]; exact Nat.mod_lt _ (by decide)
    show ((w.append_frame f).append_frames fs).time = _
    rw [ih _ hw2, TraceOfstream.append_frame_time, List.length_cons, Nat.mod_add_mod]
    congr 1; omega

theorem TraceOfstream.carried_times (frames : List trace_frame) :
    ∀ w : TraceOfstream, w.time < UINT32_SIZE →
      w.each_frame_satisfies TraceOfstream.carries_writer_time frames = true →
      ∀ i (h : i < frames.length), frames[i].global_time = (w.time + i) % UINT32_SIZE := by
  induction frames with
  | nil => intro w _ _ i h; exact absurd h (by simp)
  | cons f fs ih =>
    intro w hw hpre i hi
    simp only [TraceOfstream.each_frame_satisfies, Bool.and_eq_true,
      TraceOfstream.carries_writer_time, decide_eq_true_eq] at hpre
    obtain ⟨hf, hrest⟩ := hpre
    have hw2 : (w.append_frame f).time < UINT32_SIZE := by
      rw [TraceOfstream.append_frame_time]; exact Nat.mod_lt _ (by decide)
    cases i with
    | zero => simp [hf, Nat.mod_eq_of_lt hw]
    | succ j =>
      have hj : j < fs.length := by simpa using hi
      simp only [List.getElem_cons_succ]
      rw [ih _ hw2 hrest j hj, TraceOfstream.append_frame_time, Nat.mod_add_mod]
      congr 1; omega

theorem TraceOfstream.sample_frames_carry_time (n : Nat) :
    ∀ (t : Nat) (w : TraceOfstream), w.time = t → t + n ≤ UINT32_SIZE →
      w.each_frame_satisfies TraceOfstream.carries_writer_time
        (List.map sample_frame (List.range' t n)) = true := by
  induction n with
  | zero => intro t w _ _; rfl
  | succ n ih =>
    intro t w ht hn
    rw [List.range'_succ, List.map_cons]
    simp only [TraceOfstream.each_frame_satisfies, Bool.and_eq_true,
      TraceOfstream.carries_writer_time, decide_eq_true_eq]
    refine ⟨ht.symm, ?_⟩
    cases n with
    | zero => rfl
    | succ m =>
      apply ih
      · rw [TraceOfstream.append_frame_time, ht]
        exact Nat.mod_eq_of_lt (by omega)
      · omega

theorem World.apply_frame (w : World) (addr b : Nat) (op : ReaderOp) (h : b ≠ addr) :
    (w.apply addr op).disk = w.disk ∧ (w.apply addr op).readers[b]? = w.readers[b]? := by
  unfold World.apply
  split
  · exact ⟨rfl, rfl⟩
  · exact ⟨rfl, List.getElem?_set_ne (Ne.symm h)⟩

theorem World.run_frame (ops : List ReaderOp) :
    ∀ (w : World) (addr b : Nat), b ≠ addr →
      (w.run addr ops).disk = w.disk ∧ (w.run addr ops).readers[b]? = w.readers[b]? := by
  induction ops with
  | nil => intro w addr b _; exact ⟨rfl, rfl⟩
  | cons op ops ih =>
    intro w addr b h
    obtain ⟨h1, h2⟩ := ih (w.apply addr op) addr b h
    obtain ⟨h3, h4⟩ := World.apply_frame w addr b op h
    exact ⟨h1.trans h3, h2.trans h4⟩

theorem World.clone_some (w w2 : World) (a a2 : Nat) (h : w.clone a = some (a2, w2)) :
    ∃ r, w.readers[a]? = some r ∧ a < w.readers.length ∧ a2 = w.readers.length ∧
      w2.disk = w.disk ∧ w2.readers = w.readers ++ [r.copy] := by
  unfold World.clone at h
  split at h
  · exact absurd h (by simp)
  · rename_i r hr
    simp only [Option.some.injEq, Prod.mk.injEq] at h
    obtain ⟨h1, h2⟩ := h
    subst h2
    have hlt : a < w.readers.length := by
      by_contra hc
      rw [List.getElem?_eq_none (by omega)] at hr
      exact absurd hr (by simp)
    exact ⟨r, hr, hlt, h1.symm, rfl, rfl⟩

theorem CompressedReader.reader_copy_eq (r : CompressedReader) : r.copy = r := rfl

theorem TraceIfstream.stream_copy_eq (r : TraceIfstream) : r.copy = r := rfl

theorem TraceOfstream.tick_time_fst (w : TraceOfstream) :
    w.tick_time.1 = (w.time + 1) % UINT32_SIZE := rfl

theorem TraceOfstream.tick_time_snd_time (w : TraceOfstream) :
    w.tick_time.2.time = (w.time + 1) % UINT32_SIZE := rfl

theorem TraceOfstream.tick_times_spec (n : Nat) :
    ∀ w : TraceOfstream, w.time + n < UINT32_SIZE →
      (w.tick_times n).2.time = w.time + n ∧
      (w.tick_times n).1 = List.range' (w.time + 1) n := by
  induction n with
  | zero => intro w _; simp [TraceOfstream.tick_times]
  | succ n ih =>
    intro w h
    have hlt : w.time + 1 < UINT32_SIZE := by omega
    have ht : w.tick_time.2.time = w.time + 1 := by
      rw [TraceOfstream.tick_time_snd_time, Nat.mod_eq_of_lt hlt]
    have hr : w.tick_time.1 = w.time + 1 := by
      rw [TraceOfstream.tick_time_fst, Nat.mod_eq_of_lt hlt]
    have h2 : w.tick_time.2.time + n < UINT32_SIZE := by rw [ht]; omega
    obtain ⟨ih1, ih2⟩ := ih w.tick_time.2 h2
    constructor
    · show (TraceOfstream.tick_times n w.tick_time.2).2.time = w.time + (n + 1)
      rw [ih1, ht]; omega
    · show w.tick_time.1 :: (TraceOfstream.tick_times n w.tick_time.2).1 = _
      rw [ih2, ht, hr, List.range'_succ]

theorem append_ne_append_of_ne (d a b : String) (h : a ≠ b) : d ++ a ≠ d ++ b := by
  intro e
  apply h
  have e2 := congrArg String.data e
  rw [String.data_append, String.data_append] at e2
  exact String.ext (List.append_cancel_left e2)

theorem dir_starts_path_append (d a : String) (h : 0 < a.length) :
    d.data <+: (d ++ a).data ∧ d.length < (d ++ a).length ∧ d ++ a ≠ d := by
  refine ⟨?_, ?_, ?_⟩
  · rw [String.data_append]; exact ⟨a.data, rfl⟩
  · rw [String.length_append]; omega
  · intro e
    have e2 := congrArg String.length e
    rw [String.length_append] at e2
    omega

/-! ## Claims -/

/-- C1: a freshly constructed trace writer has `time() = 1`; over `n` calls of
`tick_time` with `1 + n < 2^32`, the time after `k` calls is `1 + k` (each call
adds exactly one), the `k`-th call returned `1 + k` (the incremented value), and
`time()` after all `n` calls is `1 + n`. -/
theorem tick_time_fresh_writer (d : String) (n : Nat) (h : 1 + n < UINT32_SIZE) :
    (TraceOfstream.new d).time = 1 ∧
    ((TraceOfstream.new d).tick_times n).2.time = 1 + n ∧
    (∀ k, k ≤ n → ((TraceOfstream.new d).tick_times k).2.time = 1 + k) ∧
    (∀ k, 1 ≤ k → k ≤ n →
      ((TraceOfstream.new d).tick_times n).1[k - 1]? = some (1 + k) ∧
      ((TraceOfstream.new d).tick_times (k - 1)).2.tick_time.1 = 1 + k) := by
  have h1 : (TraceOfstream.new d).time = 1 := rfl
  refine ⟨h1, ?_, ?_, ?_⟩
  · have := (TraceOfstream.tick_times_spec n (TraceOfstream.new d) (by rw [h1]; exact h)).1
    rw [this, h1]
  · intro k hk
    have := (TraceOfstream.tick_times_spec k (TraceOfstream.new d) (by rw [h1]; omega)).1
    rw [this, h1]
  · intro k hk1 hkn
    constructor
    · have := (TraceOfstream.tick_times_spec n (TraceOfstream.new d) (by rw [h1]; exact h)).2
      rw [this, h1, List.getElem?_range' _ _ (by omega)]
      congr 1; omega
    · have := (TraceOfstream.tick_times_spec (k - 1) (TraceOfstream.new d)
        (by rw [h1]; omega)).1
      rw [TraceOfstream.tick_time_fst, this, h1, Nat.mod_eq_of_lt (by omega)]
      omega

/-- Witness of C1 with three calls. -/
theorem tick_time_fresh_writer_witness :
    1 + 3 < UINT32_SIZE ∧
    ((TraceOfstream.new "trace").tick_times 3).2.time = 1 + 3 ∧
    ((TraceOfstream.new "trace").tick_times 3).1[2 - 1]? = some (1 + 2) :=
  ⟨by decide, (tick_time_fresh_writer "trace" 3 (by decide)).2.1,
    ((tick_time_fresh_writer "trace" 3 (by decide)).2.2.2 2 (by decide) (by decide)).1⟩

/-- C3, as stated, fails at the largest `uint32_t`: the state is a value of its
type, `tick_time` returns 0 there, and 0 is not greater than the time before. -/
theorem tick_time_wraps_at_max :
    (TraceFstream.new "trace" 4294967295).wf ∧
    (TraceFstream.new "trace" 4294967295).time = 4294967295 ∧
    (TraceFstream.new "trace" 4294967295).tick_time.1 = 0 ∧
    ¬ ((TraceFstream.new "trace" 4294967295).time <
        (TraceFstream.new "trace" 4294967295).tick_time.1) := by
  refine ⟨?_, rfl, ?_, ?_⟩ <;> decide

/-- C3, amended: for every trace stream state whose `time()` is below
`2^32 - 1`, `tick_time` returns `time() + 1`, strictly greater than the value
`time()` had before the call, and `time()` afterwards equals the returned value;
the directory is untouched. -/
theorem tick_time_strictly_increases (s : TraceFstream) (h : s.time + 1 < UINT32_SIZE) :
    s.time < s.tick_time.1 ∧
    s.tick_time.1 = s.time + 1 ∧
    s.tick_time.2.time = s.tick_time.1 ∧
    s.tick_time.2.dir = s.dir := by
  have hr : s.tick_time.1 = s.time + 1 := by
    show (s.global_time + 1) % UINT32_SIZE = s.global_time + 1
    exact Nat.mod_eq_of_lt h
  refine ⟨?_, hr, rfl, rfl⟩
  rw [hr]; exact Nat.lt_succ_self _

/-- Witness of the amended C3 at time 7. -/
theorem tick_time_strictly_increases_witness :
    (TraceFstream.new "trace" 7).time + 1 < UINT32_SIZE ∧
    (TraceFstream.new "trace" 7).time < (TraceFstream.new "trace" 7).tick_time.1 :=
  ⟨by decide, (tick_time_strictly_increases (TraceFstream.new "trace" 7) (by decide)).1⟩

/-- C4: a freshly opened trace reader has `time() = 0`, and ticking it once
gives 1, the `time()` of a freshly created writer, both as the value returned
and as the reader's `time()` afterwards. -/
theorem fresh_reader_tick_matches_fresh_writer (d dw : String) :
    (TraceIfstream.new d).time = 0 ∧
    (TraceIfstream.new d).tick_time.1 = (TraceOfstream.new dw).time ∧
    (TraceIfstream.new d).tick_time.2.time = (TraceOfstream.new dw).time ∧
    (TraceOfstream.new dw).time = 1 :=
  ⟨rfl, rfl, rfl, rfl⟩

/-- C7: a trace writer constructs `events`, `data`, `data_header` and `mmaps`
with block sizes 1048576, 8388608, 1048576 and 65536 bytes, each on its own path
under the trace directory. -/
theorem writer_block_sizes (d : String) :
    ((TraceOfstream.new d).events.block_size = 1048576 ∧
      (TraceOfstream.new d).data.block_size = 8388608 ∧
      (TraceOfstream.new d).data_header.block_size = 1048576 ∧
      (TraceOfstream.new d).mmaps.block_size = 65536) ∧
    ((TraceOfstream.new d).events.path = d ++ "/events" ∧
      (TraceOfstream.new d).data.path = d ++ "/data" ∧
      (TraceOfstream.new d).data_header.path = d ++ "/data_header" ∧
      (TraceOfstream.new d).mmaps.path = d ++ "/mmaps") ∧
    ((TraceOfstream.new d).events.path = (TraceOfstream.new d).events_path ∧
      (TraceOfstream.new d).data.path = (TraceOfstream.new d).data_path ∧
      (TraceOfstream.new d).data_header.path = (TraceOfstream.new d).data_header_path ∧
      (TraceOfstream.new d).mmaps.path = (TraceOfstream.new d).mmaps_path) := by
  refine ⟨⟨?_, ?_, ?_, ?_⟩, ⟨rfl, rfl, rfl, rfl⟩, ⟨rfl, rfl, rfl, rfl⟩⟩ <;>
    simp [TraceOfstream.new, CompressedWriter.new]

/-- C8: for every trace directory `d` (and any time), the six trace files are
`d/events`, `d/data`, `d/data_header`, `d/mmaps`, `d/args_env` and `d/version`,
and `dir()` returns `d`. -/
theorem trace_paths (d : String) (t : Nat) :
    (TraceFstream.new d t).events_path = d ++ "/events" ∧
    (TraceFstream.new d t).data_path = d ++ "/data" ∧
    (TraceFstream.new d t).data_header_path = d ++ "/data_header" ∧
    (TraceFstream.new d t).mmaps_path = d ++ "/mmaps" ∧
    (TraceFstream.new d t).args_env_path = d ++ "/args_env" ∧
    (TraceFstream.new d t).version_path = d ++ "/version" ∧
    (TraceFstream.new d t).dir = d :=
  ⟨rfl, rfl, rfl, rfl, rfl, rfl, rfl⟩

/-- C9: for every trace directory `d`, the six file paths are pairwise distinct,
in particular `data_path()` differs from `data_header_path()`, and each of them
has `d` as a proper prefix: it starts with `d` and is strictly longer. -/
theorem trace_paths_distinct (d : String) (t : Nat) :
    (TraceFstream.new d t).all_paths.Pairwise (fun p q => p ≠ q) ∧
    (TraceFstream.new d t).data_path ≠ (TraceFstream.new d t).data_header_path ∧
    ∀ p ∈ (TraceFstream.new d t).all_paths,
      d.data <+: p.data ∧ d.length < p.length ∧ p ≠ d := by
  refine ⟨?_, ?_, ?_⟩
  · simp only [TraceFstream.all_paths, TraceFstream.events_path, TraceFstream.data_path,
      TraceFstream.data_header_path, TraceFstream.mmaps_path, TraceFstream.args_env_path,
      TraceFstream.version_path, TraceFstream.new, List.pairwise_cons, List.mem_cons,
      List.mem_singleton, List.not_mem_nil, List.Pairwise.nil]
    refine ⟨?_, ?_, ?_, ?_, ?_, ?_, trivial⟩
    all_goals
      intro q hq
      rcases hq with hq | hq | hq | hq | hq | hq <;>
        first
          | (subst hq; exact append_ne_append_of_ne d _ _ (by decide))
          | exact absurd hq (by simp)
  · exact append_ne_append_of_ne d _ _ (by decide)
  · intro p hp
    simp only [TraceFstream.all_paths, TraceFstream.events_path, TraceFstream.data_path,
      TraceFstream.data_header_path, TraceFstream.mmaps_path, TraceFstream.args_env_path,
      TraceFstream.version_path, TraceFstream.new, List.mem_cons, List.mem_singleton,
      List.not_mem_nil, or_false] at hp
    rcases hp with hp | hp | hp | hp | hp | hp <;>
      (subst hp; exact dir_starts_path_append d _ (by decide))

/-- C2, as stated, fails. A freshly created writer has time 1, so the frame
that satisfies the stated precondition `frame.global_time == writer.time + 1`
has global time 2: the first frame written has global time 2, not 1, and the
frame with global time 1 does not satisfy the stated precondition, while it does
carry the writer's time. The counter is a `uint32_t`: after `2^32 - 1` frames
that each carry the writer's time, the writer's time is 0, and the next frame
carries global time 0. -/
theorem stated_precondition_starts_at_two :
    ((TraceOfstream.new "trace").each_frame_satisfies TraceOfstream.stated_precondition
        [sample_frame 2] = true ∧
      [sample_frame 2].map (fun f => f.global_time) = [2] ∧
      ¬ ([sample_frame 2].map (fun f => f.global_time) = [1])) ∧
    ((TraceOfstream.new "trace").stated_precondition (sample_frame 1) = false ∧
      (TraceOfstream.new "trace").carries_writer_time (sample_frame 1) = true) ∧
    ((TraceOfstream.new "trace").each_frame_satisfies TraceOfstream.carries_writer_time
        (List.map sample_frame (List.range' 1 4294967295)) = true ∧
      ((TraceOfstream.new "trace").append_frames
        (List.map sample_frame (List.range' 1 4294967295))).time = 0) := by
  refine ⟨⟨by decide, by decide, by decide⟩, ⟨by decide, by decide⟩, ?_, ?_⟩
  · exact TraceOfstream.sample_frames_carry_time 4294967295 1 (TraceOfstream.new "trace") rfl
      (by decide)
  · rw [TraceOfstream.append_frames_time _ _ (by decide), List.length_map, List.length_range']
    decide

/-- C2, amended: across any sequence of `append_frame` calls on a freshly
created writer, where each frame carries the writer's current time
(`frame.global_time == writer.time`) and each append ticks the writer's time
once, the `i`-th frame written has global time `i` modulo `2^32`, hence `i`
itself for `i < 2^32`: the global times start at 1 and each is one above the
previous one. The position `i` below counts from 0, so the frame is the
`(i + 1)`-th. -/
theorem append_frames_global_times (d : String) (frames : List trace_frame)
    (hpre : (TraceOfstream.new d).each_frame_satisfies TraceOfstream.carries_writer_time
      frames = true) :
    (∀ i (h : i < frames.length), frames[i].global_time = (i + 1) % UINT32_SIZE) ∧
    (∀ i (h : i < frames.length), i + 1 < UINT32_SIZE → frames[i].global_time = i + 1) ∧
    (∀ i (h : i + 1 < frames.length), i + 2 < UINT32_SIZE →
      frames[i + 1].global_time = frames[i].global_time + 1) ∧
    ((TraceOfstream.new d).append_frames frames).time =
      (frames.length + 1) % UINT32_SIZE := by
  have h1 : (TraceOfstream.new d).time = 1 := rfl
  have hlt : (TraceOfstream.new d).time < UINT32_SIZE := by rw [h1]; decide
  have hg : ∀ i (h : i < frames.length), frames[i].global_time = (i + 1) % UINT32_SIZE := by
    intro i hi
    rw [TraceOfstream.carried_times frames _ hlt hpre i hi, h1, Nat.add_comm]
  have hb : ∀ i (h : i < frames.length), i + 1 < UINT32_SIZE →
      frames[i].global_time = i + 1 := by
    intro i hi hM
    rw [hg i hi, Nat.mod_eq_of_lt hM]
  refine ⟨hg, hb, ?_, ?_⟩
  · intro i hi hM
    rw [hb (i + 1) hi hM, hb i (by omega) (by omega)]
  · rw [TraceOfstream.append_frames_time frames _ hlt, h1, Nat.add_comm]

/-- Witness of the amended C2 with the frames at global times 1, 2, 3. -/
theorem append_frames_global_times_witness :
    (TraceOfstream.new "trace").each_frame_satisfies TraceOfstream.carries_writer_time
      [sample_frame 1, sample_frame 2, sample_frame 3] = true ∧
    (∀ i (h : i < [sample_frame 1, sample_frame 2, sample_frame 3].length),
      i + 1 < UINT32_SIZE →
        [sample_frame 1, sample_frame 2, sample_frame 3][i].global_time = i + 1) ∧
    ((TraceOfstream.new "trace").append_frames
      [sample_frame 1, sample_frame 2, sample_frame 3]).time = 4 :=
  ⟨by decide,
    (append_frames_global_times "trace" [sample_frame 1, sample_frame 2, sample_frame 3]
      (by decide)).2.1,
    by decide⟩

/-- C5: for every trace reader `r`, the copy made for `clone()` has the same
`dir()`, the same `time()`, copies of the four stream readers equal to the
originals, and the same `at_end()`; as a value it equals `r`. -/
theorem copy_has_same_state (disk : Disk) (r : TraceIfstream) :
    r.copy.dir = r.dir ∧
    r.copy.time = r.time ∧
    (r.copy.events = r.events ∧ r.copy.data = r.data ∧
      r.copy.data_header = r.data_header ∧ r.copy.mmaps = r.mmaps) ∧
    r.copy.at_end disk = r.at_end disk ∧
    r.at_end disk = r.events.at_end disk ∧
    r.copy = r :=
  ⟨rfl, rfl, ⟨rfl, rfl, rfl, rfl⟩, rfl, rfl, rfl⟩

/-- C6: clone isolation. When `r2` is the clone of the reader `r`, the clone
starts with the `time()` and `at_end()` of `r`; any sequence of mutations of
`r2` (ticking or setting its time, advancing or rewinding its streams) leaves
`time()` and `at_end()` of `r` unchanged, and any such sequence on `r` leaves
those of `r2` unchanged. -/
theorem clone_isolation (w w2 : World) (r r2 : Nat) (ops : List ReaderOp)
    (h : w.clone r = some (r2, w2)) :
    (w.time r).isSome = true ∧
    (w2.time r = w.time r ∧ w2.at_end r = w.at_end r) ∧
    (w2.time r2 = w.time r ∧ w2.at_end r2 = w.at_end r) ∧
    ((w2.run r2 ops).time r = w.time r ∧ (w2.run r2 ops).at_end r = w.at_end r) ∧
    ((w2.run r ops).time r2 = w2.time r2 ∧ (w2.run r ops).at_end r2 = w2.at_end r2) := by
  obtain ⟨x, hx, hlt, hr2, hdisk, hreaders⟩ := World.clone_some w w2 r r2 h
  have hne : r ≠ r2 := by omega
  have hr : w2.readers[r]? = some x := by
    rw [hreaders, List.getElem?_append_left hlt, hx]
  have hc : w2.readers[r2]? = some x := by
    rw [hreaders, hr2, List.getElem?_append_right (Nat.le_refl _)]
    simp [TraceIfstream.stream_copy_eq]
  obtain ⟨hd1, hk1⟩ := World.run_frame ops w2 r2 r hne
  obtain ⟨hd2, hk2⟩ := World.run_frame ops w2 r r2 (Ne.symm hne)
  refine ⟨?_, ⟨?_, ?_⟩, ⟨?_, ?_⟩, ⟨?_, ?_⟩, ⟨?_, ?_⟩⟩
  · simp [World.time, hx]
  · simp [World.time, hx, hr]
  · simp [World.at_end, hx, hr, hdisk]
  · simp [World.time, hx, hc]
  · simp [World.at_end, hx, hc, hdisk]
  · simp [World.time, hx, hk1, hr]
  · simp [World.at_end, hx, hk1, hr, hd1, hdisk]
  · simp [World.time, hk2]
  · simp [World.at_end, hk2, hd2]

/-- Witness of C6: the clone at address 1 reads all five bytes of the events
file and has its time set and ticked, ending at time 3 and at the end of the
trace, while the original at address 0 stays at time 0 and not at the end. -/
theorem clone_isolation_witness :
    demo_world.clone 0 = some (1, demo_world_cloned) ∧
    (demo_world_cloned.run 1
      [ReaderOp.advance Stream.events 5, ReaderOp.set_time 2, ReaderOp.tick]).time 1 = some 3 ∧
    (demo_world_cloned.run 1
      [ReaderOp.advance Stream.events 5, ReaderOp.set_time 2, ReaderOp.tick]).at_end 1
      = some true ∧
    demo_world.time 0 = some 0 ∧
    demo_world.at_end 0 = some false ∧
    (demo_world_cloned.run 1
      [ReaderOp.advance Stream.events 5, ReaderOp.set_time 2, ReaderOp.tick]).time 0
      = demo_world.time 0 ∧
    (demo_world_cloned.run 1
      [ReaderOp.advance Stream.events 5, ReaderOp.set_time 2, ReaderOp.tick]).at_end 0
      = demo_world.at_end 0 :=
  ⟨rfl, by decide, by decide, by decide, by decide,
    (clone_isolation demo_world demo_world_cloned 0 1
      [ReaderOp.advance Stream.events 5, ReaderOp.set_time 2, ReaderOp.tick] rfl).2.2.2.1⟩

/-- C10: `HelpCommand::run` prints a command's help and returns 0 if and only if
`args` is non-empty and `args[0]` names that registered command; when `args` is
empty or `args[0]` names no command it calls `print_usage()` and returns its
result; and two argument lists with the same first element give the same
result. When `print_usage()` returns a nonzero value, the returned value alone
is 0 exactly for a registered `args[0]`. -/
theorem help_run_spec (env : CommandEnv) (args : List String) :
    (∀ c, HelpCommand.run env args = ([Call.print_help c], 0) ↔
      ∃ a0 rest, args = a0 :: rest ∧ env.command_for_name a0 = some c) ∧
    ((args = [] ∨ ∃ a0 rest, args = a0 :: rest ∧ env.command_for_name a0 = none) →
      HelpCommand.run env args = ([Call.print_usage], env.print_usage)) ∧
    (∀ a0 rest rest2, args = a0 :: rest →
      HelpCommand.run env (a0 :: rest2) = HelpCommand.run env args) ∧
    (env.print_usage ≠ 0 →
      ((HelpCommand.run env args).2 = 0 ↔
        ∃ a0 rest c, args = a0 :: rest ∧ env.command_for_name a0 = some c)) := by
  refine ⟨?_, ?_, ?_, ?_⟩
  · intro c
    cases args with
    | nil => simp [HelpCommand.run]
    | cons a rest =>
      cases hc : env.command_for_name a with
      | none => simp [HelpCommand.run, hc]
      | some c2 => simp [HelpCommand.run, hc]
  · rintro (h | ⟨a0, rest, h, hn⟩)
    · subst h; rfl
    · subst h; simp [HelpCommand.run, hn]
  · intro a0 rest rest2 h
    subst h
    rfl
  · intro hu
    cases args with
    | nil => simp [HelpCommand.run, hu]
    | cons a rest =>
      cases hc : env.command_for_name a with
      | none => simp [HelpCommand.run, hc, hu]
      | some c2 => simp [HelpCommand.run, hc]

/-- Witness of C10: `record` is registered in `demo_env` and `nope` is not. -/
theorem help_run_spec_witness :
    HelpCommand.run demo_env ["record", "x"] =
      ([Call.print_help { name := "record", help := some " rr record\n" }], 0) ∧
    HelpCommand.run demo_env ["nope"] = ([Call.print_usage], 1) ∧
    HelpCommand.run demo_env ["record"] = HelpCommand.run demo_env ["record", "x"] :=
  ⟨((help_run_spec demo_env ["record", "x"]).1 _).2 ⟨"record", ["x"], rfl, by decide⟩,
    (help_run_spec demo_env ["nope"]).2.1 (Or.inr ⟨"nope", [], rfl, by decide⟩),
    (help_run_spec demo_env ["record", "x"]).2.2.1 "record" ["x"] [] rfl⟩

end RR
